import Mathlib

/-!
Verification of the query-composition and aggregation subsystem of the
namma-ooru backend (`src/server.js`).

Member documents live in a MongoDB collection.  We embed a document as an
identifier together with an association list of string-valued fields; a key
absent from the list models a field that is missing or `null` (the two are
indistinguishable to every operator the server uses: `$regex` matches
neither, `$ne: ""` matches both, `$group` keys both as `null`).

Mongo string comparison is embedded as codepoint-wise lexicographic order on
the character list of the string, and `$regex` with `$options: "i"` applied
to a pattern without metacharacters is embedded as case-insensitive
substring containment.  `$sort` is embedded as a stable sort
(`List.insertionSort`).
-/

/-- Characters of a string, lower-cased; models the effect of the
case-insensitive `"i"` regex option. -/
def lowerChars (s : String) : List Char :=
  s.data.map Char.toLower

/-- Test whether `t` occurs at the head of `h`. -/
def hasPre : List Char → List Char → Bool
  | [], _ => true
  | _ :: _, [] => false
  | a :: t, b :: h => a == b && hasPre t h

/-- Test whether `term` occurs contiguously anywhere in `hay`. -/
def hasSub (hay term : List Char) : Bool :=
  match hay with
  | [] => hasPre term []
  | _ :: rest => hasPre term hay || hasSub rest term

/-- Case-insensitive substring containment: the embedding of the Mongo
condition `{$regex: term, $options: "i"}` on a string value, for search
terms that contain no regex metacharacters (the server passes the raw user
term straight through, and the specification reads it as substring match). -/
def containsCI (hay term : String) : Bool :=
  hasSub (lowerChars hay) (lowerChars term)

/-- Application of a case-insensitive regex condition to an optional field:
a missing or `null` field never matches a `$regex` condition in Mongo. -/
def regexIMatch (v : Option String) (term : String) : Bool :=
  match v with
  | none => false
  | some s => containsCI s term

/-- Embedded member document: the `_id` (as an abstract numeric identifier)
plus the remaining fields as an association list keyed by the Mongo field
names used in `server.js` ("First name", "Last name", "Spouse first name",
"Spouse last name", "City", "Chettinad native place", "Kovil", "YearSince",
"Email", "Spouse email id", ...).  A key that is absent models a missing or
`null` field. -/
structure Member where
  id : Nat
  fields : List (String × String)
deriving DecidableEq

/-- Lookup of a field in an association list (first occurrence wins, as in a
JS object / BSON document, whose keys are unique). -/
def fLookup : List (String × String) → String → Option String
  | [], _ => none
  | (a, b) :: rest, j => if a = j then some b else fLookup rest j

/-- Value of a field of a member document, `none` when missing/null. -/
def getField (m : Member) (k : String) : Option String :=
  fLookup m.fields k

/-- Free-text predicate of `GET /members` (server.js lines 93-102): an `$or`
of case-insensitive regex conditions over the six searched fields. -/
def memberSearchQuery (search : String) (m : Member) : Bool :=
  regexIMatch (getField m "First name") search ||
  regexIMatch (getField m "Last name") search ||
  regexIMatch (getField m "Spouse first name") search ||
  regexIMatch (getField m "Spouse last name") search ||
  regexIMatch (getField m "City") search ||
  regexIMatch (getField m "Chettinad native place") search

/-- Test whether at least one of the six fields consulted by the free-text
predicate is present (non-null) on the member. -/
def hasAnySearchField (m : Member) : Bool :=
  (getField m "First name").isSome ||
  (getField m "Last name").isSome ||
  (getField m "Spouse first name").isSome ||
  (getField m "Spouse last name").isSome ||
  (getField m "City").isSome ||
  (getField m "Chettinad native place").isSome

/-- Lexicographic codepoint order on character lists: the embedding of the
string order Mongo uses when sorting string keys. -/
def chLE : List Char → List Char → Bool
  | [], _ => true
  | _ :: _, [] => false
  | a :: s, b :: t => if a < b then true else if b < a then false else chLE s t

/-- Order on optional string sort keys; Mongo sorts missing/`null` before
any string value. -/
def optKeyLE : Option String → Option String → Bool
  | none, _ => true
  | some _, none => false
  | some s, some t => chLE s.data t.data

/-- Sort relation of `.sort({"First name": 1})` (server.js line 117). -/
def firstNameLE (a b : Member) : Prop :=
  optKeyLE (getField a "First name") (getField b "First name") = true

instance : DecidableRel firstNameLE :=
  fun a b => instDecidableEqBool _ _

theorem chLE_total (s t : List Char) : chLE s t = true ∨ chLE t s = true := by
  induction s generalizing t with
  | nil => exact Or.inl rfl
  | cons a s ih =>
    cases t with
    | nil => exact Or.inr rfl
    | cons b t =>
      rcases lt_trichotomy a b with h | h | h
      · left; simp [chLE, h]
      · subst h
        rcases ih t with h' | h' <;> [left; right] <;> simp [chLE, lt_irrefl, h']
      · right; simp [chLE, h]

theorem chLE_trans {s t u : List Char} (h1 : chLE s t = true) (h2 : chLE t u = true) :
    chLE s u = true := by
  induction s generalizing t u with
  | nil => rfl
  | cons a s ih =>
    cases t with
    | nil => simp [chLE] at h1
    | cons b t =>
      cases u with
      | nil => simp [chLE] at h2
      | cons c u =>
        simp only [chLE] at h1 h2 ⊢
        rcases lt_trichotomy a b with hab | hab | hab
        · rcases lt_trichotomy b c with hbc | hbc | hbc
          · simp [lt_trans hab hbc]
          · subst hbc; simp [hab]
          · have hnbc : ¬ b < c := not_lt.mpr hbc.le
            simp [hnbc, hbc] at h2
        · subst hab
          simp only [lt_irrefl, if_false] at h1
          rcases lt_trichotomy a c with hac | hac | hac
          · simp [hac]
          · subst hac
            simp only [lt_irrefl, if_false] at h2 ⊢
            exact ih h1 h2
          · have hnac : ¬ a < c := not_lt.mpr hac.le
            simp [hnac, hac] at h2
        · have hnab : ¬ a < b := not_lt.mpr hab.le
          simp [hnab, hab] at h1

theorem optKeyLE_total (a b : Option String) : optKeyLE a b = true ∨ optKeyLE b a = true := by
  cases a with
  | none => exact Or.inl rfl
  | some s =>
    cases b with
    | none => exact Or.inr rfl
    | some t => exact chLE_total s.data t.data

theorem optKeyLE_trans {a b c : Option String} (h1 : optKeyLE a b = true)
    (h2 : optKeyLE b c = true) : optKeyLE a c = true := by
  cases a with
  | none => rfl
  | some s =>
    cases b with
    | none => simp [optKeyLE] at h1
    | some t =>
      cases c with
      | none => simp [optKeyLE] at h2
      | some u => exact chLE_trans h1 h2

instance : IsTotal Member firstNameLE :=
  ⟨fun a b => optKeyLE_total _ _⟩

instance : IsTrans Member firstNameLE :=
  ⟨fun _ _ _ h1 h2 => optKeyLE_trans h1 h2⟩

/-- Endpoint `GET /members` (server.js lines 88-123): filter by the six-field
free-text `$or`, sort ascending by "First name", skip `(page-1)*limit`, and
take `limit` records.  `page`/`limit` arrive as optional query parameters
with JS destructuring defaults 1 and 20.  A negative skip is rejected by the
Mongo driver, which we model as `none`; the projection stage (lines 108-116)
only trims which fields are serialized and is not modelled.  -/
def getMembers (search : String) (page limit : Option Int) (store : List Member) :
    Option (List Member) :=
  let p := page.getD 1
  let l := limit.getD 20
  let skip := (p - 1) * l
  if skip < 0 then none
  else
    some ((((store.filter (memberSearchQuery search)).insertionSort firstNameLE).drop
      skip.toNat).take l.toNat)

/-- Match stage of every statistics pipeline, e.g.
`{ $match: { "Chettinad native place": { $ne: null, $ne: "" } } }`
(server.js lines 155, 170, 185, 200, 242, 260, 277, 296).  The JS object
literal repeats the key `$ne`, so only the later entry `$ne: ""` survives;
the executed match is therefore `field ≠ ""`, which missing/`null` fields
also satisfy. -/
def aggFieldFilter (f : String) (m : Member) : Bool :=
  getField m f != some ""

/-- Tally one group key into a running `(key, count)` table, keeping the
first-appearance order of keys. -/
def insertTally (k : Option String) : List (Option String × Nat) → List (Option String × Nat)
  | [] => [(k, 1)]
  | (k', c) :: rest => if k' = k then (k', c + 1) :: rest else (k', c) :: insertTally k rest

/-- Group stage `{ $group: { _id: "$f", count: { $sum: 1 } } }`: one row per
distinct value of `f` (missing/`null` grouped under `none`) with its
member count. -/
def groupCounts (f : String) (records : List Member) : List (Option String × Nat) :=
  records.foldl (fun acc m => insertTally (getField m f) acc) []

/-- Sort relation of `{ $sort: { count: -1 } }`: descending by count. -/
def countGE (a b : Option String × Nat) : Prop :=
  b.2 ≤ a.2

instance : DecidableRel countGE :=
  fun a b => Nat.decLe b.2 a.2

instance : IsTotal (Option String × Nat) countGE :=
  ⟨fun a b => Nat.le_total b.2 a.2⟩

instance : IsTrans (Option String × Nat) countGE :=
  ⟨fun _ _ _ h1 h2 => le_trans h2 h1⟩

/-- Sort relation of `{ $sort: { _id: 1 } }`: ascending by the group key. -/
def groupKeyLE (a b : Option String × Nat) : Prop :=
  optKeyLE a.1 b.1 = true

instance : DecidableRel groupKeyLE :=
  fun _ _ => instDecidableEqBool _ _

instance : IsTotal (Option String × Nat) groupKeyLE :=
  ⟨fun a b => optKeyLE_total _ _⟩

instance : IsTrans (Option String × Nat) groupKeyLE :=
  ⟨fun _ _ _ h1 h2 => optKeyLE_trans h1 h2⟩

/-- Aggregation pipeline match-group-sort with descending count order, as
used for the village/city/temple fields. -/
def statsDescByCount (f : String) (records : List Member) : List (Option String × Nat) :=
  (groupCounts f (records.filter (aggFieldFilter f))).insertionSort countGE

/-- Aggregation pipeline match-group-sort with ascending key order, as used
for the year-moved field. -/
def statsAscByKey (f : String) (records : List Member) : List (Option String × Nat) :=
  (groupCounts f (records.filter (aggFieldFilter f))).insertionSort groupKeyLE

/-- Pipeline of `GET /stats/native-village` (server.js lines 238-254) and of
the village part of `GET /analytics` before its `$limit` stage. -/
def nativeVillagePipeline : List Member → List (Option String × Nat) :=
  statsDescByCount "Chettinad native place"

/-- Pipeline of `GET /stats/city` (server.js lines 256-272). -/
def cityResidencePipeline : List Member → List (Option String × Nat) :=
  statsDescByCount "City"

/-- Pipeline of `GET /stats/kovil` (server.js lines 274-290). -/
def nagaraKovilPipeline : List Member → List (Option String × Nat) :=
  statsDescByCount "Kovil"

/-- Pipeline of `GET /stats/year` (server.js lines 292-308) and of the
year part of `GET /analytics`; sorted by `_id`, never truncated. -/
def yearMovedPipeline : List Member → List (Option String × Nat) :=
  statsAscByKey "YearSince"

/-- Village groups of `GET /analytics` (lines 153-165): `$limit: 10` after
the descending count sort. -/
def analyticsNativeVillage (records : List Member) : List (Option String × Nat) :=
  (nativeVillagePipeline records).take 10

/-- City groups of `GET /analytics` (lines 168-180). -/
def analyticsCityResidence (records : List Member) : List (Option String × Nat) :=
  (cityResidencePipeline records).take 10

/-- Temple groups of `GET /analytics` (lines 183-195). -/
def analyticsNagaraKovil (records : List Member) : List (Option String × Nat) :=
  (nagaraKovilPipeline records).take 10

/-- Year groups of `GET /analytics` (lines 198-209): no `$limit` stage. -/
def analyticsYearMoved (records : List Member) : List (Option String × Nat) :=
  yearMovedPipeline records

/-- JSON values appearing in statistics responses. -/
inductive JVal where
  | jnull
  | jstr (s : String)
  | jnum (n : Nat)
deriving DecidableEq

/-- JSON value of a group key: the `null` group serializes as JSON null. -/
def keyJVal : Option String → JVal
  | none => JVal.jnull
  | some s => JVal.jstr s

/-- Response row of the single-field statistics endpoints: the aggregation
rows are serialized as-is (`res.json(result)`), so each row keeps the Mongo
group shape `{_id, count}` (server.js lines 253, 271, 289, 307). -/
def statsRow (g : Option String × Nat) : List (String × JVal) :=
  [("_id", keyJVal g.1), ("count", JVal.jnum g.2)]

/-- Response of `GET /stats/native-village`, as a list of JSON rows. -/
def statsNativeVillageResp (records : List Member) : List (List (String × JVal)) :=
  (nativeVillagePipeline records).map statsRow

/-- Response of `GET /stats/city`. -/
def statsCityResp (records : List Member) : List (List (String × JVal)) :=
  (cityResidencePipeline records).map statsRow

/-- Response of `GET /stats/kovil`. -/
def statsKovilResp (records : List Member) : List (List (String × JVal)) :=
  (nagaraKovilPipeline records).map statsRow

/-- Response of `GET /stats/year`. -/
def statsYearResp (records : List Member) : List (List (String × JVal)) :=
  (yearMovedPipeline records).map statsRow

/-- Reshape step of `GET /analytics` for the village/city/temple sequences
(lines 213-224): `{ name: item._id, count: item.count }`. -/
def analyticsRow (g : Option String × Nat) : List (String × JVal) :=
  [("name", keyJVal g.1), ("count", JVal.jnum g.2)]

/-- Reshape step of `GET /analytics` for the year sequence (lines 225-228):
`{ name: item._id.toString(), count: item.count }`; calling `.toString()` on
a `null` group key throws, which the surrounding catch turns into a 500. -/
def yearRow (g : Option String × Nat) : Option (List (String × JVal)) :=
  match g.1 with
  | none => none
  | some s => some [("name", JVal.jstr s), ("count", JVal.jnum g.2)]

/-- Reshape of the whole year sequence; `none` when any row throws. -/
def yearRows : List (Option String × Nat) → Option (List (List (String × JVal)))
  | [] => some []
  | g :: rest =>
    match yearRow g, yearRows rest with
    | some r, some rs => some (r :: rs)
    | _, _ => none

/-- Response object of `GET /analytics` (lines 212-229). -/
structure AnalyticsResp where
  nativeVillage : List (List (String × JVal))
  cityResidence : List (List (String × JVal))
  nagaraKovil : List (List (String × JVal))
  yearMoved : List (List (String × JVal))
deriving DecidableEq

/-- Endpoint `GET /analytics` (server.js lines 148-236): four independent
aggregations assembled into one object; an error during the reshape is
reported as a generic internal error. -/
def analyticsEndpoint (records : List Member) : Except String AnalyticsResp :=
  match yearRows (analyticsYearMoved records) with
  | none => Except.error "Internal server error"
  | some yrs =>
    Except.ok
      ⟨(analyticsNativeVillage records).map analyticsRow,
       (analyticsCityResidence records).map analyticsRow,
       (analyticsNagaraKovil records).map analyticsRow,
       yrs⟩

/-- Category-to-field mapping of the `switch (category)` in
`GET /members/by-category` (server.js lines 381-399); `none` for the
`default` branch. -/
def categoryFieldName : String → Option String
  | "nativeVillage" => some "Chettinad native place"
  | "cityResidence" => some "City"
  | "nagaraKovil" => some "Kovil"
  | "yearMoved" => some "YearSince"
  | _ => none

/-- Name-only `$or` added by `GET /members/by-category` when a search term is
present (server.js lines 406-411): the four name fields, no location
fields. -/
def nameSearchQuery (search : String) (m : Member) : Bool :=
  regexIMatch (getField m "First name") search ||
  regexIMatch (getField m "Last name") search ||
  regexIMatch (getField m "Spouse first name") search ||
  regexIMatch (getField m "Spouse last name") search

/-- Test for `search.trim() !== ""`: the trimmed string is non-empty exactly
when some character of the term is not whitespace. -/
def hasNonWS (s : String) : Bool :=
  s.data.any (fun c => !c.isWhitespace)

/-- Endpoint `GET /members/by-category` (server.js lines 367-443).
Missing `category` or `value` (JS falsiness: the empty string) is a 400;
an unrecognized category is a 400 from the `default` branch; otherwise the
query is the category equality, wrapped together with the name-only `$or`
under `$and` when `search` is truthy and trims non-empty
(`search && search.trim() !== ""`).  Since the spread `{ ...query }` copies
the category equality into the `$and` as well, the executed predicate is
`eq && (eq && nameMatch)`.  Results are sorted ascending by "First name";
the projection stage (lines 420-434) only trims serialized fields and is
not modelled. -/
def byCategory (category value search : String) (store : List Member) :
    Except String (List Member) :=
  if category = "" ∨ value = "" then
    Except.error "Category and value are required parameters"
  else
    match categoryFieldName category with
    | none =>
      Except.error
        "Invalid category. Valid categories: nativeVillage, cityResidence, nagaraKovil, yearMoved"
    | some f =>
      let baseQ : Member → Bool := fun m => getField m f == some value
      let q : Member → Bool :=
        if search ≠ "" ∧ hasNonWS search = true then
          fun m => baseQ m && (baseQ m && nameSearchQuery search m)
        else baseQ
      Except.ok ((store.filter q).insertionSort firstNameLE)

/-- Outcome reported by the profile-update endpoint. -/
inductive UpdateOutcome where
  | notFound
  | updated (member : Member)
deriving DecidableEq

/-- Set one field of a document, replacing the existing entry in place or
appending a new one: the effect of one `$set` entry. -/
def setField (fs : List (String × String)) (k v : String) : List (String × String) :=
  match fs with
  | [] => [(k, v)]
  | (k', v') :: rest => if k' = k then (k, v) :: rest else (k', v') :: setField rest k v

/-- Update document built by `PUT /members/:id` (server.js lines 318-322):
the payload with its `_id` entry removed by the rest-spread, then
`UserUpdated` set to the current time (overwriting any payload entry). -/
def fieldsToUpdate (payload : List (String × String)) (now : String) :
    List (String × String) :=
  setField (payload.filter (fun kv => kv.1 != "_id")) "UserUpdated" now

/-- Application of `{ $set: us }` to one member document. -/
def applySet (m : Member) (us : List (String × String)) : Member :=
  ⟨m.id, us.foldl (fun fs kv => setField fs kv.1 kv.2) m.fields⟩

/-- Update of the store by `updateOne({_id: id}, {$set: us})`: the first
document with the matching identifier (identifiers are unique by the store
invariant) is rewritten, everything else untouched. -/
def updateStore (id : Nat) (us : List (String × String)) : List Member → List Member
  | [] => []
  | m :: rest => if m.id = id then applySet m us :: rest else m :: updateStore id us rest

/-- Endpoint `PUT /members/:id` (server.js lines 313-345): strip `_id`, stamp
`UserUpdated`, `updateOne` on the identifier; `matchedCount === 0` reports
not-found with the store untouched, otherwise the updated document is
re-fetched and returned.  `new Date()` is abstracted as the string `now`. -/
def updateMember (id : Nat) (payload : List (String × String)) (now : String)
    (store : List Member) : UpdateOutcome × List Member :=
  if store.any (fun m => m.id == id) then
    let store' := updateStore id (fieldsToUpdate payload now) store
    ((store'.find? (fun m => m.id == id)).elim UpdateOutcome.notFound UpdateOutcome.updated,
      store')
  else
    (UpdateOutcome.notFound, store)

theorem hasSub_empty_term (hay : List Char) : hasSub hay [] = true := by
  cases hay <;> simp [hasSub, hasPre]

theorem containsCI_empty_term (s : String) : containsCI s "" = true := by
  have h : lowerChars "" = [] := rfl
  simp [containsCI, h, hasSub_empty_term]

theorem regexIMatch_empty_term (v : Option String) : regexIMatch v "" = v.isSome := by
  cases v with
  | none => rfl
  | some s => simp [regexIMatch, containsCI_empty_term]

theorem memberSearchQuery_empty_term (m : Member) :
    memberSearchQuery "" m = hasAnySearchField m := by
  simp [memberSearchQuery, hasAnySearchField, regexIMatch_empty_term]

/-- C1: the claim says records whose grouped field is null or empty are
excluded from every group, with the group counts summing to the number of
records with a non-empty value.  The code's match stage is the JS object
literal `{ $ne: null, $ne: "" }` whose duplicate key leaves only `$ne: ""`,
so a member whose "Chettinad native place" is missing/null is NOT excluded:
it lands in a `null` group, and the counts sum to 1 while 0 records carry a
non-empty value. -/
theorem c1_null_group_not_excluded :
    nativeVillagePipeline [⟨1, []⟩] = [(none, 1)] ∧
    List.countP
      (fun m => (getField m "Chettinad native place").isSome &&
        getField m "Chettinad native place" != some "")
      [(⟨1, []⟩ : Member)] = 0 := by
  decide

/-- C2 counterexample: a member none of whose six searched fields is present
is not matched by the free-text predicate with the empty search term, because
`$regex` never matches a missing/null field; so search="" does not return
every record set `R` exactly. -/
theorem c2_empty_search_not_tautology :
    memberSearchQuery "" ⟨1, []⟩ = false ∧
    List.filter (memberSearchQuery "") [(⟨1, []⟩ : Member)] ≠ [⟨1, []⟩] := by
  decide

/-- C2 amended: over record sets all of whose records have at least one of
the six searched fields present (non-null), the free-text predicate with the
empty search term matches every record, so the member-list query's predicate
alone with search="" returns exactly `R`. -/
theorem c2_empty_search_identity (R : List Member)
    (h : ∀ m ∈ R, hasAnySearchField m = true) :
    List.filter (memberSearchQuery "") R = R := by
  refine List.filter_eq_self.mpr (fun m hm => ?_)
  rw [memberSearchQuery_empty_term]
  exact h m hm

theorem c2_empty_search_identity_witness :
    List.filter (memberSearchQuery "") [(⟨1, [("First name", "Anu")]⟩ : Member)] =
      [⟨1, [("First name", "Anu")]⟩] :=
  c2_empty_search_identity _ (by decide)

/-- C5: for a category name outside the four valid ones, the by-category
operation answers a client error with a descriptive message, and the answer
does not depend on the member store in any way (no store query is
executed). -/
theorem c5_unknown_category (category value search : String)
    (h : category ∉ ["nativeVillage", "cityResidence", "nagaraKovil", "yearMoved"]) :
    ∃ msg : String, ∀ store : List Member,
      byCategory category value search store = Except.error msg := by
  by_cases hc : category = "" ∨ value = ""
  · refine ⟨"Category and value are required parameters", fun store => ?_⟩
    simp only [byCategory]
    rw [if_pos hc]
  · have hf : categoryFieldName category = none := by
      unfold categoryFieldName
      split <;> simp_all
    refine ⟨"Invalid category. Valid categories: nativeVillage, cityResidence, nagaraKovil, yearMoved",
      fun store => ?_⟩
    simp only [byCategory]
    rw [if_neg hc, hf]

theorem c5_unknown_category_witness :
    ∃ msg : String, ∀ store : List Member,
      byCategory "foo" "x" "" store = Except.error msg :=
  c5_unknown_category "foo" "x" "" (by decide)

/-- C9: a profile update whose identifier matches no stored record reports
not-found and leaves the member store completely unchanged. -/
theorem c9_update_missing_id (id : Nat) (payload : List (String × String))
    (now : String) (store : List Member) (h : ∀ m ∈ store, m.id ≠ id) :
    updateMember id payload now store = (UpdateOutcome.notFound, store) := by
  have hany : store.any (fun m => m.id == id) = false := by
    simp only [List.any_eq_false, beq_iff_eq]
    exact h
  simp [updateMember, hany]

theorem c9_update_missing_id_witness :
    updateMember 5 [("City", "X")] "T" [⟨1, []⟩] = (UpdateOutcome.notFound, [⟨1, []⟩]) :=
  c9_update_missing_id 5 [("City", "X")] "T" [⟨1, []⟩] (by decide)

/-- C3 counterexample: the search term " " is non-empty, but
`search.trim() !== ""` fails, so the by-category query silently drops the
name filter: a member whose name fields do not contain " " is still
returned when only the category matches. -/
theorem c3_whitespace_search_skips_name_filter :
    byCategory "cityResidence" "Chennai" " "
        [⟨1, [("First name", "Bob"), ("City", "Chennai")]⟩] =
      Except.ok [⟨1, [("First name", "Bob"), ("City", "Chennai")]⟩] ∧
    nameSearchQuery " " ⟨1, [("First name", "Bob"), ("City", "Chennai")]⟩ = false :=
  ⟨by rfl, by decide⟩

/-- C3 amended: for every valid category/value pair (value supplied
non-empty) and every search term containing at least one non-whitespace
character, the by-category query returns exactly the records whose
category-selected field equals the value exactly AND at least one of the
four name fields contains the term as a case-insensitive substring (sorted
by first name); location fields are not consulted by the text match. -/
theorem c3_category_and_search (category value search f : String)
    (hcat : categoryFieldName category = some f) (hval : value ≠ "")
    (hsearch : hasNonWS search = true) (store : List Member) :
    byCategory category value search store =
      Except.ok ((store.filter
        (fun m => getField m f == some value && nameSearchQuery search m)).insertionSort
        firstNameLE) := by
  have hcne : category ≠ "" := by
    intro h
    rw [h] at hcat
    simp [categoryFieldName] at hcat
  have hsne : search ≠ "" := by
    intro h
    rw [h] at hsearch
    simp [hasNonWS] at hsearch
  simp only [byCategory]
  rw [if_neg (by push_neg; exact ⟨hcne, hval⟩), hcat]
  simp only [if_pos (And.intro hsne hsearch)]
  refine congrArg (fun (l : List Member) => Except.ok (l.insertionSort firstNameLE)) ?_
  exact List.filter_congr (fun m _ => Bool.and_self_left _ _)

theorem c3_category_and_search_witness :
    byCategory "cityResidence" "Chennai" "kumar"
        [⟨1, [("First name", "Kumaran"), ("City", "Chennai")]⟩] =
      Except.ok (([(⟨1, [("First name", "Kumaran"), ("City", "Chennai")]⟩ : Member)].filter
        (fun m => getField m "City" == some "Chennai" && nameSearchQuery "kumar" m)).insertionSort
        firstNameLE) :=
  c3_category_and_search "cityResidence" "Chennai" "kumar" "City" (by rfl) (by decide)
    (by decide) _

/-- C4 counterexample: a single-field statistics response keeps the raw
Mongo group shape, so its rows carry the field names `_id` and `count`,
not `name` and `count`. -/
theorem c4_stats_rows_keep_group_shape :
    (statsNativeVillageResp [⟨1, [("Chettinad native place", "Karaikudi")]⟩]).map
        (fun row => row.map Prod.fst) = [["_id", "count"]] ∧
    (["_id", "count"] : List String) ≠ ["name", "count"] := by
  decide

theorem statsRow_shape (l : List (Option String × Nat)) :
    (l.map statsRow).all (fun row => row.map Prod.fst == ["_id", "count"]) = true := by
  rw [List.all_eq_true]
  intro row hrow
  rcases List.mem_map.mp hrow with ⟨g, _, rfl⟩
  rfl

theorem yearRows_shape {l : List (Option String × Nat)}
    {rs : List (List (String × JVal))} (h : yearRows l = some rs) :
    rs.all (fun row => row.map Prod.fst == ["name", "count"]) = true := by
  induction l generalizing rs with
  | nil =>
    simp only [yearRows] at h
    cases h
    rfl
  | cons g rest ih =>
    simp only [yearRows] at h
    cases hg : yearRow g with
    | none => rw [hg] at h; simp at h
    | some r =>
      rw [hg] at h
      cases hr : yearRows rest with
      | none => rw [hr] at h; simp at h
      | some rs' =>
        rw [hr] at h
        cases h
        rw [List.all_eq_true]
        intro row hrow
        rcases List.mem_cons.mp hrow with hrow | hrow
        · subst hrow
          cases g with
          | mk k c =>
            cases k with
            | none => simp [yearRow] at hg
            | some s =>
              simp only [yearRow] at hg
              cases hg
              rfl
        · exact List.all_eq_true.mp (ih hr) row hrow

/-- C4 amended: every single-field statistics response row is a raw group
pair with fields named `_id` and `count` (the aggregation output is
serialized unchanged); the `{name, count}` reshape exists only in the
combined `GET /analytics` endpoint, whose rows all carry `name` and
`count`. -/
theorem c4_stats_and_analytics_row_shape (records : List Member) :
    (statsNativeVillageResp records).all
        (fun row => row.map Prod.fst == ["_id", "count"]) = true ∧
    (statsCityResp records).all (fun row => row.map Prod.fst == ["_id", "count"]) = true ∧
    (statsKovilResp records).all (fun row => row.map Prod.fst == ["_id", "count"]) = true ∧
    (statsYearResp records).all (fun row => row.map Prod.fst == ["_id", "count"]) = true ∧
    (∀ a, analyticsEndpoint records = Except.ok a →
      (a.nativeVillage ++ a.cityResidence ++ a.nagaraKovil ++ a.yearMoved).all
        (fun row => row.map Prod.fst == ["name", "count"]) = true) := by
  refine ⟨statsRow_shape _, statsRow_shape _, statsRow_shape _, statsRow_shape _, ?_⟩
  intro a ha
  simp only [analyticsEndpoint] at ha
  cases hyr : yearRows (analyticsYearMoved records) with
  | none => rw [hyr] at ha; simp at ha
  | some yrs =>
    rw [hyr] at ha
    cases ha
    rw [List.all_eq_true]
    intro row hrow
    have hshape : ∀ (l : List (Option String × Nat)) (r : List (String × JVal)),
        r ∈ l.map analyticsRow → (r.map Prod.fst == ["name", "count"]) = true := by
      intro l r hr
      rcases List.mem_map.mp hr with ⟨g, _, rfl⟩
      rfl
    rcases List.mem_append.mp hrow with hrow | hrow
    · rcases List.mem_append.mp hrow with hrow | hrow
      · rcases List.mem_append.mp hrow with hrow | hrow
        · exact hshape _ _ hrow
        · exact hshape _ _ hrow
      · exact hshape _ _ hrow
    · exact List.all_eq_true.mp (yearRows_shape hyr) row hrow

theorem c4_stats_and_analytics_row_shape_witness :
    (([[("name", JVal.jstr "Karaikudi"), ("count", JVal.jnum 1)]] ++
        [[("name", JVal.jstr "Chennai"), ("count", JVal.jnum 1)]] ++
        [[("name", JVal.jstr "Vairavan"), ("count", JVal.jnum 1)]] ++
        [[("name", JVal.jstr "2000"), ("count", JVal.jnum 1)]] :
      List (List (String × JVal))).all
        (fun row => row.map Prod.fst == ["name", "count"]) = true) :=
  (c4_stats_and_analytics_row_shape
      [⟨1, [("Chettinad native place", "Karaikudi"), ("City", "Chennai"),
            ("Kovil", "Vairavan"), ("YearSince", "2000")]⟩]).2.2.2.2
    ⟨[[("name", JVal.jstr "Karaikudi"), ("count", JVal.jnum 1)]],
      [[("name", JVal.jstr "Chennai"), ("count", JVal.jnum 1)]],
      [[("name", JVal.jstr "Vairavan"), ("count", JVal.jnum 1)]],
      [[("name", JVal.jstr "2000"), ("count", JVal.jnum 1)]]⟩ (by rfl)

/-- C7: the year-moved pipeline output is sorted ascending by group key, and
the village, city, and temple pipeline outputs are each sorted descending by
count. -/
theorem c7_aggregation_sort_orders (records : List Member) :
    List.Sorted groupKeyLE (yearMovedPipeline records) ∧
    List.Sorted countGE (nativeVillagePipeline records) ∧
    List.Sorted countGE (cityResidencePipeline records) ∧
    List.Sorted countGE (nagaraKovilPipeline records) :=
  ⟨List.sorted_insertionSort groupKeyLE _, List.sorted_insertionSort countGE _,
   List.sorted_insertionSort countGE _, List.sorted_insertionSort countGE _⟩

theorem statsDesc_take10_facts (f : String) (records : List Member) :
    ((statsDescByCount f records).take 10).length ≤ 10 ∧
    ∀ x ∈ (statsDescByCount f records).take 10,
      x ∈ groupCounts f (records.filter (aggFieldFilter f)) ∧
      ∀ y ∈ (statsDescByCount f records).drop 10, y.2 ≤ x.2 := by
  constructor
  · calc ((statsDescByCount f records).take 10).length
        = min 10 (statsDescByCount f records).length := List.length_take ..
      _ ≤ 10 := min_le_left _ _
  · intro x hx
    constructor
    · exact (List.perm_insertionSort countGE _).mem_iff.mp (List.mem_of_mem_take hx)
    · have hp : List.Pairwise countGE
          ((statsDescByCount f records).take 10 ++ (statsDescByCount f records).drop 10) := by
        rw [List.take_append_drop]
        exact List.sorted_insertionSort countGE _
      exact fun y hy => (List.pairwise_append.mp hp).2.2 x hx y hy

/-- C6: each truncated sequence of the combined statistics view has at most
10 entries; each entry is a genuine group of the corresponding field, and
its count is at least the count of every group the truncation dropped (so
the kept entries are from the true top-count set, even when more than 10
distinct groups exist); the year-moved sequence is never truncated. -/
theorem c6_top10_truncation (records : List Member) :
    (analyticsNativeVillage records).length ≤ 10 ∧
    (analyticsCityResidence records).length ≤ 10 ∧
    (analyticsNagaraKovil records).length ≤ 10 ∧
    (∀ x ∈ analyticsNativeVillage records,
      x ∈ groupCounts "Chettinad native place"
          (records.filter (aggFieldFilter "Chettinad native place")) ∧
      ∀ y ∈ (nativeVillagePipeline records).drop 10, y.2 ≤ x.2) ∧
    (∀ x ∈ analyticsCityResidence records,
      x ∈ groupCounts "City" (records.filter (aggFieldFilter "City")) ∧
      ∀ y ∈ (cityResidencePipeline records).drop 10, y.2 ≤ x.2) ∧
    (∀ x ∈ analyticsNagaraKovil records,
      x ∈ groupCounts "Kovil" (records.filter (aggFieldFilter "Kovil")) ∧
      ∀ y ∈ (nagaraKovilPipeline records).drop 10, y.2 ≤ x.2) ∧
    analyticsYearMoved records = yearMovedPipeline records :=
  ⟨(statsDesc_take10_facts "Chettinad native place" records).1,
   (statsDesc_take10_facts "City" records).1,
   (statsDesc_take10_facts "Kovil" records).1,
   (statsDesc_take10_facts "Chettinad native place" records).2,
   (statsDesc_take10_facts "City" records).2,
   (statsDesc_take10_facts "Kovil" records).2,
   rfl⟩

/-- Store with eleven distinct native villages ("v0" twice, "v1".."v10"
once each): more than 10 distinct groups, exercising the truncation. -/
def elevenVillageStore : List Member :=
  (List.range 11).map (fun i => ⟨i, [("Chettinad native place", "v" ++ toString i)]⟩) ++
    [⟨100, [("Chettinad native place", "v0")]⟩]

theorem c6_top10_truncation_witness :
    ((some "v0", 2) : Option String × Nat) ∈ groupCounts "Chettinad native place"
        (elevenVillageStore.filter (aggFieldFilter "Chettinad native place")) ∧
    (((some "v10", 1) : Option String × Nat)).2 ≤ (((some "v0", 2) : Option String × Nat)).2 :=
  ⟨((c6_top10_truncation elevenVillageStore).2.2.2.1 (some "v0", 2) (by decide)).1,
   ((c6_top10_truncation elevenVillageStore).2.2.2.1 (some "v0", 2) (by decide)).2
     (some "v10", 1) (by decide)⟩

/-- C8: the member list is the free-text matches sorted ascending by first
name, with offset `(page - 1) * limit` and at most `limit` records returned;
`page` defaults to 1 and `limit` to 20 when unspecified, and for page=2,
limit=20 the response is elements 20 through 39 of the full sorted result. -/
theorem c8_pagination (search : String) (store : List Member) (p l : Int)
    (hp : 1 ≤ p) (hl : 0 ≤ l) :
    ∃ full : List Member,
      full.Perm (store.filter (memberSearchQuery search)) ∧
      List.Sorted firstNameLE full ∧
      getMembers search (some p) (some l) store =
        some ((full.drop ((p - 1) * l).toNat).take l.toNat) ∧
      getMembers search none none store = some (full.take 20) ∧
      getMembers search (some 2) (some 20) store = some ((full.drop 20).take 20) := by
  refine ⟨(store.filter (memberSearchQuery search)).insertionSort firstNameLE,
    List.perm_insertionSort _ _, List.sorted_insertionSort _ _, ?_, ?_, ?_⟩
  · have hskip : ¬ ((p - 1) * l < 0) := not_lt.mpr (mul_nonneg (by omega) hl)
    simp only [getMembers, Option.getD_some]
    rw [if_neg hskip]
  · simp [getMembers]
  · have h20 : Int.toNat 20 = 20 := rfl
    norm_num [getMembers, h20]

theorem c8_pagination_witness :
    ∃ full : List Member,
      full.Perm (([⟨1, [("First name", "B")]⟩, ⟨2, [("First name", "A")]⟩] :
        List Member).filter (memberSearchQuery "a")) ∧
      List.Sorted firstNameLE full ∧
      getMembers "a" (some 2) (some 20)
          [⟨1, [("First name", "B")]⟩, ⟨2, [("First name", "A")]⟩] =
        some ((full.drop ((((2 : Int) - 1) * 20).toNat)).take ((20 : Int).toNat)) ∧
      getMembers "a" none none [⟨1, [("First name", "B")]⟩, ⟨2, [("First name", "A")]⟩] =
        some (full.take 20) ∧
      getMembers "a" (some 2) (some 20)
          [⟨1, [("First name", "B")]⟩, ⟨2, [("First name", "A")]⟩] =
        some ((full.drop 20).take 20) :=
  c8_pagination "a" [⟨1, [("First name", "B")]⟩, ⟨2, [("First name", "A")]⟩] 2 20
    (by decide) (by decide)

theorem fLookup_setField (fs : List (String × String)) (k v j : String) :
    fLookup (setField fs k v) j = if j = k then some v else fLookup fs j := by
  induction fs with
  | nil =>
    by_cases h : j = k
    · simp [setField, fLookup, h]
    · have h' : ¬ k = j := fun h' => h h'.symm
      simp [setField, fLookup, h, h']
  | cons hd tl ih =>
    obtain ⟨a, b⟩ := hd
    by_cases hak : a = k
    · subst hak
      by_cases haj : a = j
      · subst haj
        simp [setField, fLookup]
      · have haj' : ¬ j = a := fun h' => haj h'.symm
        simp [setField, fLookup, haj, haj']
    · by_cases haj : a = j
      · subst haj
        have hjk : ¬ a = k := hak
        simp [setField, fLookup, hjk]
      · simp [setField, fLookup, hak, haj, ih]

theorem fLookup_eq_none_iff (fs : List (String × String)) (j : String) :
    fLookup fs j = none ↔ j ∉ fs.map Prod.fst := by
  induction fs with
  | nil => simp [fLookup]
  | cons hd tl ih =>
    obtain ⟨a, b⟩ := hd
    by_cases h : a = j
    · subst h
      simp [fLookup]
    · have h' : ¬ j = a := fun h' => h h'.symm
      simp only [fLookup, if_neg h, List.map_cons, List.mem_cons, ih]
      constructor
      · intro hnm
        rintro (hja | hjm)
        · exact h' hja
        · exact hnm hjm
      · intro hnm hjm
        exact hnm (Or.inr hjm)

theorem mem_keys_setField (fs : List (String × String)) (k v j : String) :
    j ∈ (setField fs k v).map Prod.fst ↔ j ∈ fs.map Prod.fst ∨ j = k := by
  induction fs with
  | nil => simp [setField]
  | cons hd tl ih =>
    obtain ⟨a, b⟩ := hd
    by_cases hak : a = k
    · subst hak
      simp [setField]
      tauto
    · simp [setField, hak, ih]
      tauto

theorem nodup_keys_setField (fs : List (String × String)) (k v : String)
    (h : (fs.map Prod.fst).Nodup) : ((setField fs k v).map Prod.fst).Nodup := by
  induction fs with
  | nil => simp [setField]
  | cons hd tl ih =>
    obtain ⟨a, b⟩ := hd
    simp only [List.map_cons, List.nodup_cons] at h
    by_cases hak : a = k
    · subst hak
      have hset : setField ((a, b) :: tl) a v = (a, v) :: tl := by simp [setField]
      rw [hset]
      simp only [List.map_cons, List.nodup_cons]
      exact h
    · have hset : setField ((a, b) :: tl) k v = (a, b) :: setField tl k v := by
        simp [setField, hak]
      rw [hset]
      simp only [List.map_cons, List.nodup_cons]
      refine ⟨?_, ih h.2⟩
      rw [mem_keys_setField]
      push_neg
      exact ⟨h.1, hak⟩

theorem fLookup_foldl_setField (us : List (String × String))
    (fs : List (String × String)) (j : String) (h : (us.map Prod.fst).Nodup) :
    fLookup (us.foldl (fun acc kv => setField acc kv.1 kv.2) fs) j =
      match fLookup us j with
      | some v => some v
      | none => fLookup fs j := by
  induction us generalizing fs with
  | nil => simp [fLookup]
  | cons hd tl ih =>
    obtain ⟨k, v⟩ := hd
    simp only [List.map_cons, List.nodup_cons] at h
    rw [List.foldl_cons, ih _ h.2]
    by_cases hjk : j = k
    · subst hjk
      have hnone : fLookup tl j = none := (fLookup_eq_none_iff tl j).mpr h.1
      simp [fLookup, hnone, fLookup_setField]
    · have hkj : ¬ k = j := fun h' => hjk h'.symm
      simp only [fLookup, if_neg hkj]
      cases htl : fLookup tl j with
      | some w => rfl
      | none =>
        simp only [fLookup_setField, if_neg hjk]

theorem fLookup_strip (fs : List (String × String)) (j : String) (h : j ≠ "_id") :
    fLookup (fs.filter (fun kv => kv.1 != "_id")) j = fLookup fs j := by
  induction fs with
  | nil => rfl
  | cons hd tl ih =>
    obtain ⟨a, b⟩ := hd
    by_cases ha : a = "_id"
    · subst ha
      have haj : ¬ "_id" = j := fun h' => h h'.symm
      simp [List.filter_cons, fLookup, haj, ih]
    · simp [List.filter_cons, fLookup, ha, ih]

theorem fLookup_filter_none (p : String × String → Bool) (fs : List (String × String))
    (j : String) (h : fLookup fs j = none) : fLookup (fs.filter p) j = none := by
  induction fs with
  | nil => rfl
  | cons hd tl ih =>
    obtain ⟨a, b⟩ := hd
    by_cases haj : a = j
    · subst haj
      simp [fLookup] at h
    · simp only [fLookup, if_neg haj] at h
      by_cases hp : p (a, b) = true
      · simp [List.filter_cons, hp, fLookup, haj, ih h]
      · rw [List.filter_cons, if_neg hp]
        exact ih h

theorem nodup_keys_filter (p : String × String → Bool) (fs : List (String × String))
    (h : (fs.map Prod.fst).Nodup) : ((fs.filter p).map Prod.fst).Nodup :=
  ((fs.filter_sublist).map Prod.fst).nodup h

theorem find?_updateStore (id : Nat) (us : List (String × String)) (store : List Member)
    (m : Member) (hfind : store.find? (fun x => x.id == id) = some m) :
    (updateStore id us store).find? (fun x => x.id == id) = some (applySet m us) := by
  induction store with
  | nil => simp [List.find?] at hfind
  | cons a rest ih =>
    by_cases ha : a.id = id
    · have hba : (a.id == id) = true := beq_iff_eq.mpr ha
      simp only [List.find?, hba] at hfind
      cases hfind
      simp [updateStore, ha, List.find?, applySet, hba]
    · have hba : (a.id == id) = false := by simp [ha]
      simp only [List.find?, hba] at hfind
      simp [updateStore, ha, List.find?, applySet, hba, ih hfind]

theorem updateMember_found (id : Nat) (payload : List (String × String)) (now : String)
    (store : List Member) (m : Member)
    (hfind : store.find? (fun x => x.id == id) = some m) :
    updateMember id payload now store =
      (UpdateOutcome.updated (applySet m (fieldsToUpdate payload now)),
       updateStore id (fieldsToUpdate payload now) store) := by
  have hp := List.find?_some hfind
  have hmem : store.any (fun x => x.id == id) = true := by
    rw [List.any_eq_true]
    exact ⟨m, List.mem_of_find?_eq_some hfind, hp⟩
  simp only [updateMember, hmem, if_pos]
  rw [find?_updateStore id (fieldsToUpdate payload now) store m hfind]
  rfl

/-- C10: updating an existing member never changes its identifier (the `_id`
entry of the payload is stripped before writing), always sets the
`UserUpdated` timestamp, writes every other supplied field, and leaves every
field not named in the payload (other than `UserUpdated`) unchanged. -/
theorem c10_update_frame (id : Nat) (payload : List (String × String)) (now : String)
    (store : List Member) (m : Member)
    (hfind : store.find? (fun x => x.id == id) = some m)
    (hnd : (payload.map Prod.fst).Nodup) :
    ∃ m', (updateMember id payload now store).1 = UpdateOutcome.updated m' ∧
      m'.id = m.id ∧
      getField m' "UserUpdated" = some now ∧
      (∀ k v, k ≠ "_id" → k ≠ "UserUpdated" → fLookup payload k = some v →
        getField m' k = some v) ∧
      (∀ k, k ≠ "UserUpdated" → fLookup payload k = none →
        getField m' k = getField m k) := by
  have hndus : ((fieldsToUpdate payload now).map Prod.fst).Nodup :=
    nodup_keys_setField _ _ _ (nodup_keys_filter _ _ hnd)
  have hmain : ∀ k, getField (applySet m (fieldsToUpdate payload now)) k =
      match fLookup (fieldsToUpdate payload now) k with
      | some v => some v
      | none => getField m k :=
    fun k => fLookup_foldl_setField (fieldsToUpdate payload now) m.fields k hndus
  refine ⟨applySet m (fieldsToUpdate payload now), ?_, rfl, ?_, ?_, ?_⟩
  · rw [updateMember_found id payload now store m hfind]
  · have h1 : fLookup (fieldsToUpdate payload now) "UserUpdated" = some now := by
      simp only [fieldsToUpdate]
      rw [fLookup_setField, if_pos rfl]
    rw [hmain "UserUpdated", h1]
  · intro k v hk1 hk2 hkv
    have h2 : fLookup (fieldsToUpdate payload now) k = some v := by
      simp only [fieldsToUpdate]
      rw [fLookup_setField, if_neg hk2, fLookup_strip _ _ hk1]
      exact hkv
    rw [hmain k, h2]
  · intro k hk2 hkn
    have h3 : fLookup (fieldsToUpdate payload now) k = none := by
      simp only [fieldsToUpdate]
      rw [fLookup_setField, if_neg hk2]
      exact fLookup_filter_none _ _ _ hkn
    rw [hmain k, h3]

theorem c10_update_frame_witness :
    ∃ m', (updateMember 1 [("_id", "zzz"), ("City", "New")] "T"
        [⟨1, [("First name", "A"), ("City", "Old")]⟩]).1 = UpdateOutcome.updated m' ∧
      m'.id = (⟨1, [("First name", "A"), ("City", "Old")]⟩ : Member).id ∧
      getField m' "UserUpdated" = some "T" ∧
      (∀ k v, k ≠ "_id" → k ≠ "UserUpdated" →
        fLookup [("_id", "zzz"), ("City", "New")] k = some v → getField m' k = some v) ∧
      (∀ k, k ≠ "UserUpdated" → fLookup [("_id", "zzz"), ("City", "New")] k = none →
        getField m' k = getField (⟨1, [("First name", "A"), ("City", "Old")]⟩ : Member) k) :=
  c10_update_frame 1 [("_id", "zzz"), ("City", "New")] "T"
    [⟨1, [("First name", "A"), ("City", "Old")]⟩]
    ⟨1, [("First name", "A"), ("City", "Old")]⟩ (by decide) (by decide)
